import Mathlib

/-!
Verification of the SSE transport and streaming chat reducer of the
SurfaceLabs front-end.

The development shallowly embeds:

* the buffered SSE transport (`utils/sse.ts`, the variant used by
  `useChatStream`, with `onHeaders` support): byte chunks are decoded,
  accumulated in a buffer, split on newline, and every complete
  `event:`/`data:` line is parsed and dispatched to callbacks
  (namespace `SseBuffered`);
* the older unbuffered transport variant (same exported name
  `streamSSE`, no carry-over buffer, event type read from the payload's
  embedded `event` field) (namespace `SseUnbuffered`);
* the streaming chat reducer of `useChatStream.sendMessage`
  (`chatStep`, `runTurn`, `sendMessage`).

JavaScript dynamic values are modelled by `Json` (the image of
`JSON.parse`), with `Option Json` standing for a possibly-`undefined`
field access.  `JSON.parse` itself is modelled by the executable fueled
parser `jsonParse` (integer numerals only, no \u escapes; these corners
are not exercised by any claim).  Console logging, `window.dispatchEvent`
and the React state setters (`setIsStreaming`, `setError`) are side
effects outside the accumulator and are not modelled.
-/

mutual
/-- JSON values, the image of `JSON.parse`.  Arrays and objects are
spelled as the mutual list types `JsonElems` / `JsonFields` so that
equality and stringification stay structurally recursive. -/
inductive Json where
  | null
  | bool (b : Bool)
  | num (n : Int)
  | str (s : String)
  | arr (elems : JsonElems)
  | obj (fields : JsonFields)
  deriving DecidableEq
/-- Element list of a JSON array. -/
inductive JsonElems where
  | nil
  | cons (hd : Json) (tl : JsonElems)
  deriving DecidableEq
/-- Field list of a JSON object. -/
inductive JsonFields where
  | nil
  | cons (k : String) (v : Json) (tl : JsonFields)
  deriving DecidableEq
end

/-- Build an object field list from a Lean list (notation helper). -/
def JsonFields.ofList : List (String × Json) → JsonFields
  | [] => .nil
  | (k, v) :: rest => .cons k v (JsonFields.ofList rest)

/-- Object literal from a Lean list. -/
def Json.jobj (l : List (String × Json)) : Json := .obj (.ofList l)

/-- Whitespace recognised by `trim` / the JSON parser (ASCII subset of
the JS definition; the streams at issue use only these). -/
def isWsChar (c : Char) : Bool :=
  c = ' ' || c = '\t' || c = '\n' || c = '\r'

/-- `String.prototype.trim`, over character lists. -/
def trimL (l : List Char) : List Char :=
  ((l.dropWhile isWsChar).reverse.dropWhile isWsChar).reverse

/-- `String.prototype.startsWith`, over character lists. -/
def hasPre : List Char → List Char → Bool
  | [], _ => true
  | _ :: _, [] => false
  | p :: ps, c :: cs => p = c && hasPre ps cs

/-- Substring containment (`String.prototype.includes`), over
character lists. -/
def containsSub (needle : List Char) : List Char → Bool
  | [] => hasPre needle []
  | c :: rest => hasPre needle (c :: rest) || containsSub needle rest

/-- `a.includes(b)` on strings. -/
def containsSubS (needle hay : String) : Bool :=
  containsSub needle.toList hay.toList

/-- One step of `splitNl`: prepend a character to the first line. -/
def consLine (c : Char) : List (List Char) × List Char → List (List Char) × List Char
  | ([], b) => ([], c :: b)
  | (l :: ls, b) => ((c :: l) :: ls, b)

/-- `buffer.split("\n")` with the final (possibly partial) fragment
separated out: first component the complete lines, second the fragment
after the last newline. -/
def splitNl : List Char → List (List Char) × List Char
  | [] => ([], [])
  | c :: rest =>
    if c = '\n' then ([] :: (splitNl rest).1, (splitNl rest).2)
    else consLine c (splitNl rest)

/-- All segments of `text.split("\n")` (the unbuffered variant
processes the trailing fragment as a line too). -/
def splitAllNl (s : List Char) : List (List Char) :=
  (splitNl s).1 ++ [(splitNl s).2]

/- ### The JSON parser (model of `JSON.parse`) -/

/-- Skip JSON whitespace. -/
def skipWs : List Char → List Char
  | [] => []
  | c :: rest => if isWsChar c then skipWs rest else c :: rest

/-- JSON string escapes (`\uXXXX` is not modelled). -/
def escMap (c : Char) : Option Char :=
  if c = '"' then some '"'
  else if c = '\\' then some '\\'
  else if c = '/' then some '/'
  else if c = 'n' then some '\n'
  else if c = 't' then some '\t'
  else if c = 'r' then some '\r'
  else if c = 'b' then some (Char.ofNat 8)
  else if c = 'f' then some (Char.ofNat 12)
  else none

/-- Parse the body of a JSON string after the opening quote. -/
def pStrChars : List Char → Option (List Char × List Char)
  | [] => none
  | '"' :: rest => some ([], rest)
  | '\\' :: rest =>
    match rest with
    | [] => none
    | e :: rest2 =>
      match escMap e with
      | none => none
      | some c =>
        match pStrChars rest2 with
        | none => none
        | some (s, r) => some (c :: s, r)
  | c :: rest =>
    match pStrChars rest with
    | none => none
    | some (s, r) => some (c :: s, r)

/-- Consume a run of decimal digits. -/
def pDigits (acc : Nat) : List Char → Nat × List Char
  | [] => (acc, [])
  | c :: rest =>
    if c.isDigit then pDigits (acc * 10 + (c.toNat - '0'.toNat)) rest
    else (acc, c :: rest)

mutual

/-- Parse one JSON value (fueled; integer numerals only). -/
def pVal : Nat → List Char → Option (Json × List Char)
  | 0, _ => none
  | Nat.succ fuel, s =>
    match skipWs s with
    | 'n' :: 'u' :: 'l' :: 'l' :: rest => some (.null, rest)
    | 't' :: 'r' :: 'u' :: 'e' :: rest => some (.bool true, rest)
    | 'f' :: 'a' :: 'l' :: 's' :: 'e' :: rest => some (.bool false, rest)
    | '"' :: rest =>
      match pStrChars rest with
      | some (cs, r) => some (.str (String.mk cs), r)
      | none => none
    | '[' :: rest =>
      match pArrItems fuel rest with
      | some (xs, r) => some (.arr xs, r)
      | none => none
    | '{' :: rest =>
      match pObjItems fuel rest with
      | some (fs, r) => some (.obj fs, r)
      | none => none
    | '-' :: c :: rest =>
      if c.isDigit then
        match pDigits 0 (c :: rest) with
        | (n, r) => some (.num (-(n : Int)), r)
      else none
    | c :: rest =>
      if c.isDigit then
        match pDigits 0 (c :: rest) with
        | (n, r) => some (.num (n : Int), r)
      else none
    | [] => none

/-- Parse array items after `[`. -/
def pArrItems : Nat → List Char → Option (JsonElems × List Char)
  | 0, _ => none
  | Nat.succ fuel, s =>
    match skipWs s with
    | ']' :: rest => some (.nil, rest)
    | _ =>
      match pVal fuel s with
      | none => none
      | some (v, r) =>
        match skipWs r with
        | ',' :: r2 =>
          match pArrItems fuel r2 with
          | some (vs, r3) => some (.cons v vs, r3)
          | none => none
        | ']' :: r2 => some (.cons v .nil, r2)
        | _ => none

/-- Parse object fields after the opening brace. -/
def pObjItems : Nat → List Char → Option (JsonFields × List Char)
  | 0, _ => none
  | Nat.succ fuel, s =>
    match skipWs s with
    | '}' :: rest => some (.nil, rest)
    | '"' :: rest =>
      match pStrChars rest with
      | none => none
      | some (kcs, r) =>
        match skipWs r with
        | ':' :: r2 =>
          match pVal fuel r2 with
          | none => none
          | some (v, r3) =>
            match skipWs r3 with
            | ',' :: r4 =>
              match pObjItems fuel r4 with
              | some (fs, r5) => some (.cons (String.mk kcs) v fs, r5)
              | none => none
            | '}' :: r4 => some (.cons (String.mk kcs) v .nil, r4)
            | _ => none
        | _ => none
    | _ => none

end

/-- `JSON.parse`: whole-input parse, trailing whitespace allowed. -/
def jsonParse (s : List Char) : Option Json :=
  match pVal (s.length + 1) s with
  | some (v, r) => if skipWs r = [] then some v else none
  | none => none

/- ### JS value helpers -/

/-- JS truthiness of a parsed JSON value. -/
def truthyJ : Json → Bool
  | .null => false
  | .bool b => b
  | .num n => n != 0
  | .str s => s != ""
  | .arr _ => true
  | .obj _ => true

/-- Truthiness of a possibly-`undefined` value. -/
def truthyO : Option Json → Bool
  | none => false
  | some j => truthyJ j

/-- Field access `fields.k`; `none` models `undefined`. -/
def getField : JsonFields → String → Option Json
  | .nil, _ => none
  | .cons k' v rest, k => if k' = k then some v else getField rest k

/-- Field access on an arbitrary value (non-objects have no fields). -/
def jget : Json → String → Option Json
  | .obj fs, k => getField fs k
  | _, _ => none

/-- Strict equality `===`.  Primitives compare by value; two parsed
objects or arrays are distinct references in the modelled runs (every
comparison in the source compares values originating from separate
`JSON.parse` results), so object/array comparisons are `false`. -/
def jsStrictEq : Json → Json → Bool
  | .null, .null => true
  | .bool a, .bool b => a == b
  | .num a, .num b => a == b
  | .str a, .str b => a == b
  | _, _ => false

/-- `a || b` on JS values (left operand possibly `undefined`). -/
def jsOrJ (v : Option Json) (d : Json) : Json :=
  match v with
  | some x => if truthyJ x then x else d
  | none => d

/-- Is the value the string literal `s` (a `=== "name"` test)? -/
def isStrVal (v : Option Json) (s : String) : Bool :=
  match v with
  | some (.str t) => t == s
  | _ => false

mutual
/-- JS stringification `String(v)` (template literals, `Error`
messages). -/
def jsToStr : Json → String
  | .null => "null"
  | .bool b => if b then "true" else "false"
  | .num n => toString n
  | .str s => s
  | .arr xs => jsElemsStr xs
  | .obj _ => "[object Object]"
/-- `Array.prototype.toString`: elements joined with commas, `null`
rendered empty. -/
def jsElemsStr : JsonElems → String
  | .nil => ""
  | .cons x .nil => (match x with | .null => "" | y => jsToStr y)
  | .cons x (.cons y tl) =>
    (match x with | .null => "" | z => jsToStr z) ++ "," ++ jsElemsStr (.cons y tl)
end

/-- Template interpolation of a possibly-`undefined` value. -/
def jsDisplayOpt : Option Json → String
  | none => "undefined"
  | some j => jsToStr j

/- ### Transport callback traces -/

/-- One callback invocation of the SSE transport, in order of
occurrence.  `onHeaders` carries an opaque tag standing for the
response's header collection. -/
inductive CB where
  | onHeaders (h : Nat)
  | onEvent (e : Json) (d : Json)
  | onProgress (p : Json) (m : Json)
  | onMetadata (d : Json)
  | onComplete (d : Option Json)
  | onError (m : Json)
  deriving DecidableEq

/-- A failure thrown inside the read loop: either the explicit
`throw new Error(msg)` of the `error` dispatch, or a `JSON.parse`
failure on a `data:` line. -/
inductive SSEErr where
  | thrownMsg (m : Json)
  | parseFailure (line : List Char)
  deriving DecidableEq

/-- The `(eventType, data)` pairs delivered to `onEvent`, in order. -/
def onEventsOf (cbs : List CB) : List (Json × Json) :=
  cbs.filterMap fun c =>
    match c with
    | .onEvent e d => some (e, d)
    | _ => none

/-- Count of `onHeaders` invocations in a trace. -/
def countHeaders (cbs : List CB) : Nat :=
  cbs.countP fun c =>
    match c with
    | .onHeaders _ => true
    | _ => false

namespace SseBuffered

/-- Result of processing one complete line (or a batch of lines):
the updated `lastEventType`, the callbacks invoked, and the failure
that aborts the read loop, if any. -/
structure StepOut where
  et : String
  cbs : List CB
  err : Option SSEErr
  deriving DecidableEq

/-- Dispatch of one successfully parsed `data:` payload: `onEvent`
always fires first, then the convenience callback selected by the
effective event type (`lastEventType`, falling back to the payload's
`event` field when the line-level type is still `"message"`); the
`error` dispatch invokes `onError` and then throws, and the catch
around the whole `try` swallows that failure unless the line-level
event type is `"error"`. -/
def dispatchData (et : String) (data : Json) : StepOut :=
  let evCb := CB.onEvent (.str et) data
  let etv : Option Json :=
    if et ≠ "message" then some (.str et) else jget data "event"
  if isStrVal etv "progress" then
    ⟨et, [evCb, .onProgress (jsOrJ (jget data "percent") (.num 0))
                  (jsOrJ (jget data "message") (.str ""))], none⟩
  else if isStrVal etv "metadata" || (!truthyO etv && truthyO (jget data "owner")) then
    ⟨et, [evCb, .onMetadata data], none⟩
  else if isStrVal etv "complete" then
    ⟨et, [evCb, .onComplete (some data)], none⟩
  else if isStrVal etv "error" then
    let msg := jsOrJ (jget data "message") (.str "An error occurred")
    if et = "error" then ⟨et, [evCb, .onError msg], some (.thrownMsg msg)⟩
    else ⟨et, [evCb, .onError msg], none⟩
  else ⟨et, [evCb], none⟩

/-- Body of the `for (const part of parts)` loop of the buffered
`streamSSE` for one line: trim; skip empty; `event:` updates the
sticky event type; `data:` parses its JSON payload (empty payloads
skipped) and dispatches via `dispatchData`; a parse failure is
swallowed unless the current event type is `"error"`, in which case it
aborts the loop. -/
def procLine (et : String) (raw : List Char) : StepOut :=
  let line := trimL raw
  if line.isEmpty then ⟨et, [], none⟩
  else if hasPre ("event:".toList) line then
    ⟨String.mk (trimL (line.drop 6)), [], none⟩
  else if hasPre ("data:".toList) line then
    let js := trimL (line.drop 5)
    if js.isEmpty then ⟨et, [], none⟩
    else
      match jsonParse js with
      | none =>
        if et = "error" then ⟨et, [], some (.parseFailure js)⟩
        else ⟨et, [], none⟩
      | some data => dispatchData et data
  else ⟨et, [], none⟩

/-- Process a batch of complete lines, stopping at the first abort. -/
def procLines (et : String) : List (List Char) → StepOut
  | [] => ⟨et, [], none⟩
  | l :: ls =>
    let o := procLine et l
    match o.err with
    | some e => ⟨o.et, o.cbs, some e⟩
    | none =>
      let o2 := procLines o.et ls
      ⟨o2.et, o.cbs ++ o2.cbs, o2.err⟩

/-- Loop state of the buffered reader: the sticky event type and the
trailing partial line kept for the next read. -/
structure SseState where
  lastEventType : String
  buffer : List Char
  deriving DecidableEq

/-- One iteration of the read loop: append the chunk to the buffer,
split on newline, keep the final fragment, process the complete
lines. -/
def procChunk (st : SseState) (chunk : List Char) : SseState × List CB × Option SSEErr :=
  let p := splitNl (st.buffer ++ chunk)
  let o := procLines st.lastEventType p.1
  (⟨o.et, p.2⟩, o.cbs, o.err)

/-- The whole read loop over a chunked body; a thrown failure stops
reading. -/
def runChunks (st : SseState) : List (List Char) → List CB × Option SSEErr
  | [] => ([], none)
  | c :: cs =>
    let r := procChunk st c
    match r.2.2 with
    | some e => (r.2.1, some e)
    | none =>
      let r2 := runChunks r.1 cs
      (r.2.1 ++ r2.1, r2.2)

/-- Chunk-free rendering of the read loop: process the complete lines
of the whole text at once (the trailing fragment is discarded, as the
loop does on `done`). -/
def runText (st : SseState) (text : List Char) : List CB × Option SSEErr :=
  let o := procLines st.lastEventType (splitNl (st.buffer ++ text)).1
  (o.cbs, o.err)

/-- Initial loop state: `lastEventType = "message"`, empty buffer. -/
def initState : SseState := ⟨"message", []⟩

/-- The callback trace of the parse loop on a chunked body. -/
def sseRun (chunks : List (List Char)) : List CB × Option SSEErr :=
  runChunks initState chunks

/-- Model of the host `JSON.parse` error text (it contains `"JSON"`). -/
def jsonParseErrMsg : String := "Unexpected token in JSON"

/-- `err.message` of a loop failure. -/
def errMsgOf : SSEErr → String
  | .thrownMsg m => jsToStr m
  | .parseFailure _ => jsonParseErrMsg

/-- The outer catch: default empty messages, classify network
failures, otherwise pass the message through. -/
def normalizeErrMsg (m : String) : String :=
  let m1 := if m = "" then "Unknown error" else m
  if containsSubS "Failed to fetch" m1 || containsSubS "NetworkError" m1 then
    "Network error. Please check your connection."
  else m1

/-- A fetch response: HTTP success flag, error body text, an opaque
header-collection tag, and the body reader's chunks (`none` models a
missing body stream). -/
structure MockResponse where
  ok : Bool
  bodyText : String
  headersTag : Nat
  body : Option (List (List Char))
  deriving DecidableEq

/-- The full `streamSSE` call on a fetched response: non-ok responses
throw before `onHeaders`; otherwise `onHeaders` fires (when supplied),
then the read loop runs; every failure funnels through the outer catch
which invokes `onError` once more and rejects the call. -/
def streamSSE (resp : MockResponse) (hasOnHeaders : Bool) : List CB × Option String :=
  if resp.ok then
    let hd := if hasOnHeaders then [CB.onHeaders resp.headersTag] else []
    match resp.body with
    | none =>
      let m := normalizeErrMsg "No response stream available"
      (hd ++ [CB.onError (.str m)], some m)
    | some chunks =>
      let r := runChunks initState chunks
      match r.2 with
      | none => (hd ++ r.1, none)
      | some e =>
        let m := normalizeErrMsg (errMsgOf e)
        (hd ++ r.1 ++ [CB.onError (.str m)], some m)
  else
    let m := normalizeErrMsg ("Failed to connect to server: " ++ resp.bodyText)
    ([CB.onError (.str m)], some m)

end SseBuffered

namespace SseUnbuffered

/-- Line handling of the unbuffered `streamSSE` variant: raw lines
(no trim before the prefix tests), `event:` lines skipped, event type
taken from the payload's `event` field; the catch after the dispatch
rethrows only failures whose message is non-empty and does not
contain `"JSON"`. -/
def procLine (raw : List Char) : List CB × Option SSEErr :=
  if hasPre ("event:".toList) raw then ([], none)
  else if hasPre ("data:".toList) raw then
    let js := trimL (raw.drop 5)
    if js.isEmpty then ([], none)
    else
      match jsonParse js with
      | none => ([], none)
      | some data =>
        let evCb := CB.onEvent (jsOrJ (jget data "event") (.str "unknown")) data
        let ev := jget data "event"
        if isStrVal ev "progress" then
          ([evCb, .onProgress (jsOrJ (jget data "percent") (.num 0))
                    (jsOrJ (jget data "message") (.str ""))], none)
        else if isStrVal ev "metadata" || (!truthyO ev && truthyO (jget data "owner")) then
          ([evCb, .onMetadata data], none)
        else if isStrVal ev "complete" then
          ([evCb, .onComplete (jget data "data")], none)
        else if isStrVal ev "error" then
          let msg := jsOrJ (jget data "message") (.str "An error occurred")
          let ms := jsToStr msg
          if ms != "" && !containsSubS "JSON" ms then
            ([evCb, .onError msg], some (.thrownMsg msg))
          else ([evCb, .onError msg], none)
        else ([evCb], none)
  else ([], none)

/-- Process the lines of one chunk, stopping at the first abort. -/
def procLines : List (List Char) → List CB × Option SSEErr
  | [] => ([], none)
  | l :: ls =>
    let r := procLine l
    match r.2 with
    | some e => (r.1, some e)
    | none =>
      let r2 := procLines ls
      (r.1 ++ r2.1, r2.2)

/-- The unbuffered read loop: each chunk is split on newline in
isolation (every segment, including a trailing fragment, is treated
as a line). -/
def runChunks : List (List Char) → List CB × Option SSEErr
  | [] => ([], none)
  | c :: cs =>
    let r := procLines (splitAllNl c)
    match r.2 with
    | some e => (r.1, some e)
    | none =>
      let r2 := runChunks cs
      (r.1 ++ r2.1, r2.2)

/-- The callback trace of the unbuffered parse loop. -/
def sseRun (chunks : List (List Char)) : List CB × Option SSEErr :=
  runChunks chunks

end SseUnbuffered

/- ### The streaming chat reducer (`useChatStream.sendMessage`) -/

/-- The token-usage record held by one turn; fields are JS values
(`Object.assign` copies whatever the event carries). -/
structure Usage where
  prompt_tokens : Json
  candidates_tokens : Json
  thoughts_tokens : Json
  cached_tokens : Json
  total_tokens : Json
  deriving DecidableEq

/-- Initial usage record: all five counters zero. -/
def usage0 : Usage :=
  ⟨.num 0, .num 0, .num 0, .num 0, .num 0⟩

/-- `Object.assign(usage, data)` over the five declared fields: a
field present on the event replaces the stored value, a field the
event omits keeps its previous value. -/
def assignUsage (u : Usage) (d : Json) : Usage :=
  { prompt_tokens := (jget d "prompt_tokens").getD u.prompt_tokens
    candidates_tokens := (jget d "candidates_tokens").getD u.candidates_tokens
    thoughts_tokens := (jget d "thoughts_tokens").getD u.thoughts_tokens
    cached_tokens := (jget d "cached_tokens").getD u.cached_tokens
    total_tokens := (jget d "total_tokens").getD u.total_tokens }

/-- The accumulator of one chat turn (the closure variables of
`sendMessage`): rolling status, status history, concatenated content,
citations, state-change notices, and the usage record. -/
structure TurnState where
  currentStatus : Option Json
  history : List Json
  content : String
  citations : List Json
  stateChanges : List Json
  usage : Usage
  deriving DecidableEq

/-- Initial turn accumulator. -/
def turn0 : TurnState :=
  ⟨some (.str "Initializing..."), [], "", [], [], usage0⟩

/-- One `onUpdate` snapshot (a `Partial<Message>` plus usage);
`none` fields are absent from the partial object. -/
structure MsgUpdate where
  reasoning : Option String := none
  content : Option String := none
  isThinking : Option Bool := none
  citations : Option (List Json) := none
  stateChanges : Option (List Json) := none
  usage : Option Usage := none
  deriving DecidableEq

/-- Reasoning composition: the current status alone, or current status,
a `---` separator line, and the history joined by newlines. -/
def buildReasoning (st : TurnState) : String :=
  if st.history.isEmpty then jsDisplayOpt st.currentStatus
  else
    jsDisplayOpt st.currentStatus ++ "\n---\n" ++
      String.intercalate "\n" (st.history.map jsToStr)

/-- The generic post-event snapshot: reasoning, content, recomputed
`isThinking` (content still empty), and copies of the collections. -/
def genericUpdate (st : TurnState) : MsgUpdate :=
  { reasoning := some (buildReasoning st)
    content := some st.content
    isThinking := some (st.content.length == 0)
    citations := some st.citations
    stateChanges := some st.stateChanges
    usage := some st.usage }

/-- `data.token || ""` rendered into the content string. -/
def tokenAppend (v : Option Json) : String :=
  match v with
  | some j => if truthyJ j then jsToStr j else ""
  | none => ""

/-- `"Error: " + (data.message || "An error occurred")` payload. -/
def errMsgStr (data : Json) : String :=
  jsToStr (jsOrJ (jget data "message") (.str "An error occurred"))

/-- `` `${data.tool_name} - ${summary}` `` for tool / sub-agent
responses (`dflt` is the summary fallback). -/
def toolRespStatus (data : Json) (dflt : String) : Option Json :=
  some (.str (jsDisplayOpt (jget data "tool_name") ++ " - " ++
    jsToStr (jsOrJ (jget data "response_summary") (.str dflt))))

/-- The terminal snapshot of the `complete` case. -/
def completeUpdate (st : TurnState) : MsgUpdate :=
  { reasoning := some (buildReasoning st)
    content := some st.content
    isThinking := some false
    citations := some st.citations
    stateChanges := some st.stateChanges
    usage := some st.usage }

/-- The terminal snapshot of the `error` case (`st` is the state with
the error status already set; `content` falls back to the apology). -/
def errorUpdate (st : TurnState) (origContent : String) (em : String) : MsgUpdate :=
  { reasoning := some (buildReasoning st)
    content := some (if origContent != "" then origContent
                     else "Sorry, an error occurred: " ++ em)
    isThinking := some false
    citations := some st.citations
    stateChanges := some st.stateChanges
    usage := some st.usage }

/-- The `onEvent` handler of `sendMessage` for one `(event, data)`
pair: the switch over event names followed by the generic snapshot
emission; `complete` and `error` emit their terminal snapshot and
return early instead.  Returns the new accumulator and the snapshots
emitted during this invocation. -/
def chatStep (st : TurnState) (ev : String) (data : Json) : TurnState × List MsgUpdate :=
  match ev with
  | "status" =>
    let hist :=
      match st.currentStatus with
      | some v =>
        if truthyJ v && !jsStrictEq v (.str "Initializing...")
            && !(st.history.any fun h => jsStrictEq h v) then
          st.history ++ [v]
        else st.history
      | none => st.history
    let st1 := { st with history := hist, currentStatus := jget data "status" }
    (st1, [genericUpdate st1])
  | "tool_call" => (st, [genericUpdate st])
  | "tool call" => (st, [genericUpdate st])
  | "tool_response" =>
    let st1 := { st with currentStatus := toolRespStatus data "Done" }
    (st1, [genericUpdate st1])
  | "tool response" =>
    let st1 := { st with currentStatus := toolRespStatus data "Done" }
    (st1, [genericUpdate st1])
  | "sub_agent_call" => (st, [genericUpdate st])
  | "sub_agent call" => (st, [genericUpdate st])
  | "sub agent call" => (st, [genericUpdate st])
  | "sub_agent_response" =>
    let st1 := { st with currentStatus := toolRespStatus data "Complete" }
    (st1, [genericUpdate st1])
  | "sub_agent response" =>
    let st1 := { st with currentStatus := toolRespStatus data "Complete" }
    (st1, [genericUpdate st1])
  | "sub agent response" =>
    let st1 := { st with currentStatus := toolRespStatus data "Complete" }
    (st1, [genericUpdate st1])
  | "token" =>
    let st1 := { st with content := st.content ++ tokenAppend (jget data "token") }
    (st1, [genericUpdate st1])
  | "citation" =>
    let st1 :=
      match jget data "citation" with
      | some c =>
        if truthyJ c then { st with citations := st.citations ++ [c] } else st
      | none => st
    (st1, [genericUpdate st1])
  | "state_change" =>
    let st1 :=
      match jget data "state_delta" with
      | some d =>
        if truthyJ d then { st with stateChanges := st.stateChanges ++ [d] } else st
      | none => st
    (st1, [genericUpdate st1])
  | "state change" =>
    let st1 :=
      match jget data "state_delta" with
      | some d =>
        if truthyJ d then { st with stateChanges := st.stateChanges ++ [d] } else st
      | none => st
    (st1, [genericUpdate st1])
  | "complete" => (st, [completeUpdate st])
  | "error" =>
    let em := errMsgStr data
    let st1 := { st with currentStatus := some (.str ("Error: " ++ em)) }
    (st1, [errorUpdate st1 st.content em])
  | "token_usage" =>
    let st1 := if truthyJ data then { st with usage := assignUsage st.usage data } else st
    (st1, [genericUpdate st1])
  | "code_proposal" =>
    let ncs : Option Json :=
      some (.str ("Proposed changes for " ++ jsDisplayOpt (jget data "file_path")))
    let st1 :=
      if truthyO (jget data "file_path") && truthyO (jget data "proposed_content") then
        { st with currentStatus := ncs }
      else st
    (st1, [genericUpdate st1])
  | _ => (st, [genericUpdate st])

/-- Fold the handler over a delivered event sequence, collecting every
emitted snapshot in order. -/
def runTurn (st : TurnState) : List (String × Json) → TurnState × List MsgUpdate
  | [] => (st, [])
  | (ev, d) :: rest =>
    let r := chatStep st ev d
    let r2 := runTurn r.1 rest
    (r2.1, r.2 ++ r2.2)

/-- The error snapshot of the missing-folder fast path. -/
def missingContextUpdate : MsgUpdate :=
  { reasoning := some "Error: Missing Context"
    content := some "Repository context (folder ID) is missing."
    isThinking := some false }

/-- `sendMessage`, driven by the event sequence the transport would
deliver: an empty (falsy) `folderId` short-circuits with a synthetic
error snapshot and no transport call; otherwise the initial
`isThinking` snapshot is emitted and the events are folded through the
handler.  The first component records whether `streamSSE` was
invoked. -/
def sendMessage (folderId : String) (events : List (String × Json)) :
    Bool × List MsgUpdate :=
  if folderId = "" then
    (false, [missingContextUpdate])
  else
    (true,
      { reasoning := some (buildReasoning turn0), isThinking := some true }
        :: (runTurn turn0 events).2)

/-- The `onError` callback of `sendMessage` (invoked by the transport
on any loop failure): sets an error status and emits a terminal
snapshot with a fixed apology string as content. -/
def onErrorUpdate (st : TurnState) (err : String) : TurnState × MsgUpdate :=
  let st1 := { st with currentStatus := some (.str ("Error: " ++ err)) }
  (st1, { reasoning := some (buildReasoning st1)
          content := some ("Sorry, an error occurred: " ++ err)
          isThinking := some false
          citations := some st1.citations
          stateChanges := some st1.stateChanges
          usage := some st1.usage })

/- ### Auxiliary notions used by the claims -/

/-- The `(eventType, data)` pairs of a buffered-transport trace as the
chat reducer receives them (the buffered variant always passes the
string `lastEventType`). -/
def onEventStrPairs (cbs : List CB) : List (String × Json) :=
  cbs.filterMap fun c =>
    match c with
    | .onEvent (.str e) d => some (e, d)
    | _ => none

/-- Spec-side reading of the token field: the string it carries, the
empty string when absent. -/
def specTokenStr (d : Json) : String :=
  match jget d "token" with
  | some (.str s) => s
  | _ => ""

/-- The token field is absent or carries a string (the protocol's
`token{token}` shape). -/
def tokenFieldOk (d : Json) : Prop :=
  jget d "token" = none ∨ ∃ s, jget d "token" = some (.str s)

/-- Pairwise `===`-distinctness, the sense in which
`!history.includes(...)` deduplicates. -/
def refDistinct (l : List Json) : Prop :=
  l.Pairwise fun a b => jsStrictEq a b = false

/-- Primitive JSON values (those `===` compares by value). -/
def primJ : Json → Bool
  | .arr _ => false
  | .obj _ => false
  | _ => true

/-- Concatenation of a list of strings in order. -/
def concatStrs : List String → String
  | [] => ""
  | s :: rest => s ++ concatStrs rest

/- ### Theorems -/

theorem splitNl_snd_no_nl (s : List Char) : '\n' ∉ (splitNl s).2 := by
  induction s with
  | nil => simp [splitNl]
  | cons c rest ih =>
    by_cases hc : c = '\n'
    · simpa [splitNl, hc] using ih
    · rcases h1 : splitNl rest with ⟨l1, b1⟩
      simp only [h1] at ih
      rcases l1 with _ | ⟨l, ls⟩
      · simp only [splitNl, if_neg hc, h1, consLine, List.mem_cons]
        push_neg
        exact ⟨fun hh => hc hh.symm, ih⟩
      · simpa [splitNl, if_neg hc, h1, consLine] using ih

theorem splitNl_no_nl (s : List Char) (h : '\n' ∉ s) : splitNl s = ([], s) := by
  induction s with
  | nil => simp [splitNl]
  | cons c rest ih =>
    have hc : c ≠ '\n' := fun hh => h (hh ▸ List.mem_cons_self c rest)
    have hr : '\n' ∉ rest := fun hh => h (List.mem_cons_of_mem c hh)
    simp [splitNl, hc, ih hr, consLine]

theorem splitNl_append (x y : List Char) :
    splitNl (x ++ y) =
      ((splitNl x).1 ++ (splitNl ((splitNl x).2 ++ y)).1,
        (splitNl ((splitNl x).2 ++ y)).2) := by
  induction x with
  | nil => simp [splitNl]
  | cons c x ih =>
    by_cases hc : c = '\n'
    · subst hc
      simp [splitNl, ih]
    · rcases h1 : splitNl x with ⟨l1, b1⟩
      simp only [h1] at ih
      rcases l1 with _ | ⟨l, ls⟩
      · simp only [List.nil_append] at ih
        rcases h2 : splitNl (b1 ++ y) with ⟨l2, b2⟩
        simp only [h2] at ih
        simp only [List.cons_append, splitNl, if_neg hc, h1, consLine, ih]
        rcases l2 with _ | ⟨m, ms⟩ <;> simp [splitNl, if_neg hc, consLine, h2, ih]
      · rcases h2 : splitNl (b1 ++ y) with ⟨l2, b2⟩
        simp only [h2, List.cons_append] at ih
        simp [List.cons_append, splitNl, if_neg hc, h1, consLine, ih, h2]

namespace SseBuffered

theorem procLines_append (et : String) (xs ys : List (List Char)) :
    procLines et (xs ++ ys) =
      (match (procLines et xs).err with
       | some _ => procLines et xs
       | none =>
         ⟨(procLines (procLines et xs).et ys).et,
          (procLines et xs).cbs ++ (procLines (procLines et xs).et ys).cbs,
          (procLines (procLines et xs).et ys).err⟩) := by
  induction xs generalizing et with
  | nil => simp [procLines]
  | cons l ls ih =>
    rcases ho : procLine et l with ⟨et1, cbs1, err1⟩
    rcases err1 with _ | e
    · simp only [List.cons_append, procLines, ho, List.append_eq]
      rw [ih et1]
      rcases he : (procLines et1 ls).err with _ | e2 <;> simp [he]
    · simp [procLines, ho]

theorem runChunks_eq_runText (cs : List (List Char)) (st : SseState)
    (hb : '\n' ∉ st.buffer) :
    runChunks st cs = runText st cs.flatten := by
  induction cs generalizing st with
  | nil =>
    simp [runChunks, runText, splitNl_no_nl _ hb, procLines]
  | cons c cs ih =>
    have hassoc : st.buffer ++ (c ++ cs.flatten) = (st.buffer ++ c) ++ cs.flatten := by
      simp [List.append_assoc]
    rcases h1 : splitNl (st.buffer ++ c) with ⟨ls1, b1⟩
    have hb1 : '\n' ∉ b1 := by
      have := splitNl_snd_no_nl (st.buffer ++ c)
      simpa [h1] using this
    rcases h2 : splitNl (b1 ++ cs.flatten) with ⟨ls2, b2⟩
    have hsplit : splitNl (st.buffer ++ (c ++ cs.flatten)) = (ls1 ++ ls2, b2) := by
      rw [hassoc, splitNl_append, h1]
      simp [h2]
    rcases ho : procLines st.lastEventType ls1 with ⟨et1, cbs1, err1⟩
    have happ := procLines_append st.lastEventType ls1 ls2
    rw [ho] at happ
    rcases err1 with _ | e
    · simp only at happ
      have ihx := ih ⟨et1, b1⟩ hb1
      simp only [runText, h2] at ihx
      simp only [runChunks, procChunk, h1, ho, ihx]
      simp only [runText, List.flatten_cons, hsplit, happ]
    · simp only at happ
      simp only [runChunks, procChunk, h1, ho]
      simp only [runText, List.flatten_cons, hsplit, happ]

theorem sseRun_eq_runText (cs : List (List Char)) :
    sseRun cs = runText initState cs.flatten :=
  runChunks_eq_runText cs initState (by simp [initState])

end SseBuffered

/-- Claim C1, amended: the chunk-invariance property holds of the
buffered `streamSSE` parse loop (the variant `useChatStream` uses,
which retains the final partial line in its buffer): for every stream
and every two ways of splitting it into chunks, the ordered sequence
of `(eventType, data)` pairs delivered to `onEvent` is identical.
The original claim, ranging over both `streamSSE` variants, fails for
the unbuffered one — see `claim_C1_counterexample`. -/
theorem claim_C1 (cs1 cs2 : List (List Char)) (h : cs1.flatten = cs2.flatten) :
    onEventsOf (SseBuffered.sseRun cs1).1 = onEventsOf (SseBuffered.sseRun cs2).1 := by
  rw [SseBuffered.sseRun_eq_runText, SseBuffered.sseRun_eq_runText, h]

/-- Claim C1 witness: a well-formed two-frame stream delivered whole,
and the same bytes split mid-line and mid-JSON-token, produce the same
`onEvent` sequence under the buffered parse loop. -/
theorem claim_C1_witness :
    (["event: status\ndata: \x7b\"status\":\"Go\"\x7d\n".toList] : List (List Char)).flatten
      = ["event: sta".toList, "tus\ndata: \x7b\"stat".toList, "us\":\"Go\"\x7d\n".toList].flatten
    ∧ onEventsOf (SseBuffered.sseRun
        ["event: status\ndata: \x7b\"status\":\"Go\"\x7d\n".toList]).1
      = onEventsOf (SseBuffered.sseRun
        ["event: sta".toList, "tus\ndata: \x7b\"stat".toList, "us\":\"Go\"\x7d\n".toList]).1 :=
  ⟨by decide, claim_C1 _ _ (by decide)⟩

/-- Claim C1 counterexample: the claim as stated fails for the
unbuffered `streamSSE` variant (also cited by the claim): the same
stream `data: \x7b"token":"A"\x7d\n` delivered whole yields one
`onEvent` call, but split mid-JSON-token it yields none — the partial
line is not retained across reads. -/
theorem claim_C1_counterexample :
    (["data: \x7b\"token\":\"A\"\x7d\n".toList] : List (List Char)).flatten
      = ["data: \x7b\"to".toList, "ken\":\"A\"\x7d\n".toList].flatten
    ∧ onEventsOf (SseUnbuffered.sseRun
        ["data: \x7b\"token\":\"A\"\x7d\n".toList]).1
      ≠ onEventsOf (SseUnbuffered.sseRun
        ["data: \x7b\"to".toList, "ken\":\"A\"\x7d\n".toList]).1 := by
  decide

/-- Claim C5: when the required folder id is absent (falsy), no
transport call is made and `onUpdate` immediately receives a single
synthetic assistant-error snapshot (`isThinking` false, error
content). -/
theorem claim_C5 (folderId : String) (events : List (String × Json))
    (h : folderId = "") :
    sendMessage folderId events = (false, [missingContextUpdate])
    ∧ missingContextUpdate.isThinking = some false
    ∧ missingContextUpdate.content
        = some "Repository context (folder ID) is missing." := by
  subst h
  exact ⟨rfl, rfl, rfl⟩

/-- Claim C5 witness: the fast path at the empty folder id with a
nonempty event list behind it. -/
theorem claim_C5_witness :
    ("" : String) = ""
    ∧ (sendMessage "" [("token", Json.jobj [("token", .str "x")])]
          = (false, [missingContextUpdate])
        ∧ missingContextUpdate.isThinking = some false
        ∧ missingContextUpdate.content
            = some "Repository context (folder ID) is missing.") :=
  ⟨rfl, claim_C5 "" [("token", Json.jobj [("token", .str "x")])] rfl⟩

theorem countHeaders_append (a b : List CB) :
    countHeaders (a ++ b) = countHeaders a + countHeaders b := by
  simp [countHeaders, List.countP_append]

namespace SseBuffered

theorem dispatchData_no_headers (et : String) (data : Json) :
    countHeaders (dispatchData et data).cbs = 0 := by
  unfold dispatchData
  dsimp only
  repeat' split
  all_goals rfl

theorem procLine_no_headers (et : String) (raw : List Char) :
    countHeaders (procLine et raw).cbs = 0 := by
  unfold procLine
  dsimp only
  repeat' split
  all_goals first
    | rfl
    | exact dispatchData_no_headers _ _

theorem procLines_no_headers (et : String) (ls : List (List Char)) :
    countHeaders (procLines et ls).cbs = 0 := by
  induction ls generalizing et with
  | nil => simp [procLines, countHeaders]
  | cons l ls ih =>
    rcases ho : procLine et l with ⟨et1, cbs1, err1⟩
    have h0 : countHeaders cbs1 = 0 := by
      have := procLine_no_headers et l
      simpa [ho] using this
    rcases err1 with _ | e <;>
      simp [procLines, ho, countHeaders_append, h0, ih]

theorem runChunks_no_headers (st : SseState) (cs : List (List Char)) :
    countHeaders (runChunks st cs).1 = 0 := by
  induction cs generalizing st with
  | nil => simp [runChunks, countHeaders]
  | cons c cs ih =>
    rcases hp : procChunk st c with ⟨st1, cbs1, err1⟩
    have h1 : countHeaders cbs1 = 0 := by
      have := procLines_no_headers st.lastEventType (splitNl (st.buffer ++ c)).1
      simp only [procChunk] at hp
      cases hp
      simpa using this
    rcases err1 with _ | e <;>
      simp [runChunks, hp, countHeaders_append, h1, ih]

end SseBuffered

/-- Claim C6, amended: for every call of the buffered `streamSSE` that
supplies an `onHeaders` callback and whose HTTP response is ok, the
callback trace begins with the single `onHeaders` invocation — so
`onHeaders` runs exactly once and strictly before any `onEvent`, even
when the response body is empty.  The original claim, quantified over
every call, fails on a non-ok response, where `onHeaders` never runs —
see `claim_C6_counterexample`. -/
theorem claim_C6 (resp : SseBuffered.MockResponse) (h : resp.ok = true) :
    ∃ rest, (SseBuffered.streamSSE resp true).1
        = CB.onHeaders resp.headersTag :: rest
      ∧ countHeaders rest = 0 := by
  unfold SseBuffered.streamSSE
  simp only [h, if_true]
  rcases hb : resp.body with _ | chunks
  · exact ⟨[CB.onError (.str (SseBuffered.normalizeErrMsg "No response stream available"))],
      by simp, by simp [countHeaders]⟩
  · rcases hr : SseBuffered.runChunks SseBuffered.initState chunks with ⟨cbs, err⟩
    have h0 : countHeaders cbs = 0 := by
      have := SseBuffered.runChunks_no_headers SseBuffered.initState chunks
      simpa [hr] using this
    rcases err with _ | e
    · exact ⟨cbs, by simp [hr], h0⟩
    · exact ⟨cbs ++ [CB.onError
          (.str (SseBuffered.normalizeErrMsg (SseBuffered.errMsgOf e)))],
        by simp [hr], by rw [countHeaders_append, h0]; rfl⟩

/-- Claim C6 witness: an ok response with an empty body; `onHeaders`
fires once and first. -/
theorem claim_C6_witness :
    (SseBuffered.MockResponse.mk true "" 7 (some [])).ok = true
    ∧ ∃ rest, (SseBuffered.streamSSE ⟨true, "", 7, some []⟩ true).1
        = CB.onHeaders 7 :: rest ∧ countHeaders rest = 0 :=
  ⟨rfl, claim_C6 ⟨true, "", 7, some []⟩ rfl⟩

/-- Claim C6 counterexample: on a non-ok response the call throws
before reaching `onHeaders`, so a transport call that supplies
`onHeaders` can see zero invocations, contradicting `exactly once per
transport call`. -/
theorem claim_C6_counterexample :
    countHeaders (SseBuffered.streamSSE ⟨false, "boom", 7, some []⟩ true).1 = 0 := by
  decide

/-- Claim C2, amended: handling a `complete` or `error` event emits
exactly one snapshot — the terminal one, with `isThinking` false — and
skips the generic per-event emission; `complete` leaves the
accumulator unchanged and `error` mutates only `currentStatus`.  The
original claim — that after a terminal event no further mutation or
emission can occur for the turn — fails because the handler does not
latch: events delivered after `complete` are still processed, see
`claim_C2_counterexample`. -/
theorem claim_C2 (st : TurnState) (data : Json) :
    (chatStep st "complete" data).1 = st
    ∧ (chatStep st "complete" data).2 = [completeUpdate st]
    ∧ (completeUpdate st).isThinking = some false
    ∧ (chatStep st "error" data).1.content = st.content
    ∧ (chatStep st "error" data).1.history = st.history
    ∧ (chatStep st "error" data).1.citations = st.citations
    ∧ (chatStep st "error" data).1.stateChanges = st.stateChanges
    ∧ (chatStep st "error" data).1.usage = st.usage
    ∧ (chatStep st "error" data).2.length = 1
    ∧ ((chatStep st "error" data).2.head?.map fun u => u.isThinking)
        = some (some false) :=
  ⟨rfl, rfl, rfl, rfl, rfl, rfl, rfl, rfl, rfl, rfl⟩

/-- Claim C2 counterexample: in the sequence `complete` then `token`,
the `token` event delivered after the terminal `complete` snapshot
still mutates `content` (from `""` to `"x"`) and emits a second
snapshot, so mutation and emission do continue after a terminal
event. -/
theorem claim_C2_counterexample :
    (runTurn turn0 [("complete", Json.jobj []),
        ("token", Json.jobj [("token", .str "x")])]).1.content = "x"
    ∧ (runTurn turn0 [("complete", Json.jobj []),
        ("token", Json.jobj [("token", .str "x")])]).2.length = 2
    ∧ (runTurn turn0 [("complete", Json.jobj [])]).1.content = ""
    ∧ (runTurn turn0 [("complete", Json.jobj [])]).2.length = 1 := by
  decide

/-- Claim C3, amended: `token_usage` merges field-wise
(`Object.assign`): each of the five usage fields present on the
incoming event replaces the stored value, while fields the event omits
keep their previous values; the whole record is replaced exactly when
the event carries all five fields.  The original claim — replacement
including omitted fields, independent of prior state — fails, see
`claim_C3_counterexample`. -/
theorem claim_C3 (st : TurnState) (data : Json) (h : truthyJ data = true) :
    ((chatStep st "token_usage" data).1.usage.prompt_tokens
        = (jget data "prompt_tokens").getD st.usage.prompt_tokens)
    ∧ ((chatStep st "token_usage" data).1.usage.candidates_tokens
        = (jget data "candidates_tokens").getD st.usage.candidates_tokens)
    ∧ ((chatStep st "token_usage" data).1.usage.thoughts_tokens
        = (jget data "thoughts_tokens").getD st.usage.thoughts_tokens)
    ∧ ((chatStep st "token_usage" data).1.usage.cached_tokens
        = (jget data "cached_tokens").getD st.usage.cached_tokens)
    ∧ ((chatStep st "token_usage" data).1.usage.total_tokens
        = (jget data "total_tokens").getD st.usage.total_tokens)
    ∧ (∀ p c t k tot,
        jget data "prompt_tokens" = some p →
        jget data "candidates_tokens" = some c →
        jget data "thoughts_tokens" = some t →
        jget data "cached_tokens" = some k →
        jget data "total_tokens" = some tot →
        (chatStep st "token_usage" data).1.usage = ⟨p, c, t, k, tot⟩) := by
  refine ⟨?_, ?_, ?_, ?_, ?_, ?_⟩
  · simp [chatStep, h, assignUsage]
  · simp [chatStep, h, assignUsage]
  · simp [chatStep, h, assignUsage]
  · simp [chatStep, h, assignUsage]
  · simp [chatStep, h, assignUsage]
  · intro p c t k tot hp hc ht hk htot
    simp [chatStep, h, assignUsage, hp, hc, ht, hk, htot]

/-- Claim C3 witness: a usage snapshot carrying only `total_tokens`
replaces that field and keeps the other four. -/
theorem claim_C3_witness :
    truthyJ (Json.jobj [("total_tokens", .num 10)]) = true
    ∧ ((chatStep { turn0 with usage := { usage0 with prompt_tokens := .num 5 } }
          "token_usage" (Json.jobj [("total_tokens", .num 10)])).1.usage.prompt_tokens
        = (jget (Json.jobj [("total_tokens", .num 10)]) "prompt_tokens").getD
            (Json.num 5)) :=
  ⟨rfl, (claim_C3 { turn0 with usage := { usage0 with prompt_tokens := .num 5 } }
      (Json.jobj [("total_tokens", .num 10)]) rfl).1⟩

/-- Claim C3 counterexample: for the same incoming `token_usage`
snapshot (which omits `prompt_tokens`), two different prior usage
records produce two different results — the omitted field keeps its
previous value, so the record is not replaced wholesale. -/
theorem claim_C3_counterexample :
    (chatStep { turn0 with usage := { usage0 with prompt_tokens := .num 5 } }
        "token_usage" (Json.jobj [("total_tokens", .num 10)])).1.usage
      ≠ (chatStep { turn0 with usage := { usage0 with prompt_tokens := .num 7 } }
        "token_usage" (Json.jobj [("total_tokens", .num 10)])).1.usage
    ∧ jget (Json.jobj [("total_tokens", .num 10)]) "prompt_tokens" = none := by
  decide

theorem jsStrictEq_str_iff (h : Json) (s : String) :
    jsStrictEq h (.str s) = true ↔ h = .str s := by
  cases h <;> simp [jsStrictEq]

/-- Claim C4, amended: on a `status` event the previous
`currentStatus` is pushed onto `statusHistory` exactly when it is
truthy (nonempty), not the placeholder `"Initializing..."`, and not
already present anywhere in `statusHistory` — membership anywhere, not
merely distinctness from the most recent entry; afterwards
`currentStatus` is replaced with the event's `status` field.  The
original claim's `not the most recent entry` condition fails, see
`claim_C4_counterexample`. -/
theorem claim_C4 (st : TurnState) (data : Json) (s : String)
    (hcs : st.currentStatus = some (.str s)) :
    ((s ≠ "" ∧ s ≠ "Initializing..." ∧ Json.str s ∉ st.history) →
        (chatStep st "status" data).1.history = st.history ++ [Json.str s])
    ∧ ((s = "" ∨ s = "Initializing..." ∨ Json.str s ∈ st.history) →
        (chatStep st "status" data).1.history = st.history)
    ∧ (chatStep st "status" data).1.currentStatus = jget data "status" := by
  have hany : (st.history.any fun h => jsStrictEq h (.str s)) = true
      ↔ Json.str s ∈ st.history := by
    rw [List.any_eq_true]
    constructor
    · rintro ⟨x, hx, he⟩
      rw [jsStrictEq_str_iff] at he
      exact he ▸ hx
    · intro hm
      exact ⟨_, hm, (jsStrictEq_str_iff _ _).mpr rfl⟩
  refine ⟨?_, ?_, ?_⟩
  · rintro ⟨h1, h2, h3⟩
    have htr : truthyJ (.str s) = true := by simp [truthyJ, h1]
    have hplc : jsStrictEq (.str s) (.str "Initializing...") = false := by
      simp [jsStrictEq, h2]
    have ha : (st.history.any fun h => jsStrictEq h (.str s)) = false := by
      rw [← Bool.not_eq_true, hany]
      exact h3
    simp only [chatStep, hcs, htr, hplc, ha, Bool.not_false, Bool.and_self,
      Bool.and_true, Bool.not_true, Bool.and_false, if_true]
  · intro hc
    rcases hc with h1 | h1 | h1
    · have htr : truthyJ (.str s) = false := by simp [truthyJ, h1]
      simp only [chatStep, hcs, htr, Bool.false_and, if_false]
      simp
    · have hplc : jsStrictEq (.str s) (.str "Initializing...") = true := by
        simp [jsStrictEq, h1]
      simp only [chatStep, hcs, hplc, Bool.not_true, Bool.and_false,
        Bool.false_and, if_false]
      simp
    · have ha : (st.history.any fun h => jsStrictEq h (.str s)) = true :=
        hany.mpr h1
      simp only [chatStep, hcs, ha, Bool.not_true, Bool.and_false, if_false]
      simp
  · simp [chatStep, hcs]

/-- Claim C4 witness: a meaningful, fresh status is pushed and
`currentStatus` takes the event's value. -/
theorem claim_C4_witness :
    (TurnState.mk (some (.str "Working")) [.str "Planning"] "" [] [] usage0).currentStatus
        = some (.str "Working")
    ∧ (("Working" ≠ "" ∧ "Working" ≠ "Initializing..."
          ∧ Json.str "Working" ∉ [Json.str "Planning"]) →
        (chatStep (TurnState.mk (some (.str "Working")) [.str "Planning"] "" [] [] usage0)
            "status" (Json.jobj [("status", .str "Next")])).1.history
          = [Json.str "Planning"] ++ [Json.str "Working"]) :=
  ⟨rfl, (claim_C4 (TurnState.mk (some (.str "Working")) [.str "Planning"] "" [] [] usage0)
      (Json.jobj [("status", .str "Next")]) "Working" rfl).1⟩

/-- Claim C4 counterexample: with history `["A", "B"]` and current
status `"A"` — meaningful and different from the most recent entry
`"B"` — the claim as stated requires a push, but the code suppresses
it because `"A"` occurs earlier in the history. -/
theorem claim_C4_counterexample :
    (TurnState.mk (some (.str "A")) [.str "A", .str "B"] "" [] [] usage0).history.getLast?
        ≠ some (.str "A")
    ∧ ("A" : String) ≠ "Initializing..."
    ∧ truthyJ (.str "A") = true
    ∧ (chatStep (TurnState.mk (some (.str "A")) [.str "A", .str "B"] "" [] [] usage0)
        "status" (Json.jobj [("status", .str "C")])).1.history
      = [.str "A", .str "B"]
    ∧ (chatStep (TurnState.mk (some (.str "A")) [.str "A", .str "B"] "" [] [] usage0)
        "status" (Json.jobj [("status", .str "C")])).1.history
      ≠ [.str "A", .str "B"] ++ [.str "A"] := by
  decide

/-- Claim C8: over any sequence of `token` events, `content` grows by
exactly the concatenation, in arrival order, of each event's token
field (the empty string standing in when the field is absent); nothing
deduplicates, so a re-delivered token is appended again.  From the
turn's initial empty content, `content` equals that concatenation. -/
theorem claim_C8 (st : TurnState) (ds : List Json)
    (h : ∀ d ∈ ds, tokenFieldOk d) :
    (runTurn st (ds.map fun d => ("token", d))).1.content
      = st.content ++ concatStrs (ds.map specTokenStr) := by
  induction ds generalizing st with
  | nil => simp [runTurn, concatStrs]
  | cons d ds ih =>
    have hd := h d (List.mem_cons_self _ _)
    have ht : ∀ x ∈ ds, tokenFieldOk x := fun x hx => h x (List.mem_cons_of_mem _ hx)
    have hstep : (chatStep st "token" d).1.content = st.content ++ specTokenStr d := by
      rcases hd with h0 | ⟨s, hs⟩
      · simp [chatStep, tokenAppend, specTokenStr, h0]
      · by_cases hse : s = ""
        · simp [chatStep, tokenAppend, specTokenStr, hs, hse, truthyJ]
        · simp [chatStep, tokenAppend, specTokenStr, hs, hse, truthyJ, jsToStr]
    have hrec := ih (chatStep st "token" d).1 ht
    simp only [List.map_cons, runTurn]
    rw [hrec, hstep, concatStrs]
    simp [String.append_assoc]

/-- Claim C8 witness: delivering the same token twice doubles it:
two `token "Hel"` events from the initial state yield `"HelHel"`. -/
theorem claim_C8_witness :
    (∀ d ∈ [Json.jobj [("token", .str "Hel")], Json.jobj [("token", .str "Hel")]],
        tokenFieldOk d)
    ∧ (runTurn turn0 ([Json.jobj [("token", .str "Hel")],
          Json.jobj [("token", .str "Hel")]].map fun d => ("token", d))).1.content
        = "" ++ concatStrs ([Json.jobj [("token", .str "Hel")],
            Json.jobj [("token", .str "Hel")]].map specTokenStr) :=
  have hp : ∀ d ∈ [Json.jobj [("token", .str "Hel")],
      Json.jobj [("token", .str "Hel")]], tokenFieldOk d := by
    intro d hd
    simp only [List.mem_cons, List.not_mem_nil, or_false] at hd
    rcases hd with rfl | rfl
    · exact Or.inr ⟨"Hel", rfl⟩
    · exact Or.inr ⟨"Hel", rfl⟩
  ⟨hp, claim_C8 turn0 _ hp⟩

theorem jsStrictEq_eq_of_prim (v : Json) (hv : primJ v = true) (x : Json) :
    jsStrictEq x v = true ↔ x = v := by
  cases v <;> cases x <;> simp_all [jsStrictEq, primJ]

theorem chatStep_history (st : TurnState) (ev : String) (data : Json) :
    (chatStep st ev data).1.history = st.history
    ∨ ∃ v, st.currentStatus = some v
        ∧ (st.history.any fun h => jsStrictEq h v) = false
        ∧ (chatStep st ev data).1.history = st.history ++ [v] := by
  unfold chatStep
  repeat' split
  all_goals try (exact Or.inl rfl)
  rename_i v heq hcond
  refine Or.inr ⟨v, heq, ?_, rfl⟩
  simp only [Bool.and_eq_true, Bool.not_eq_true'] at hcond
  exact hcond.2

/-- Claim C9: every reducer operation preserves pairwise
`===`-distinctness of `statusHistory` — a status value already present
anywhere in the history is never pushed again (strictly stronger than
suppressing consecutive duplicates); consequently, for primitive
(string) statuses the history never acquires duplicate entries. -/
theorem claim_C9 (st : TurnState) (ev : String) (data : Json)
    (hd : refDistinct st.history) :
    refDistinct (chatStep st ev data).1.history
    ∧ (st.history.Nodup →
       (∀ v, st.currentStatus = some v → primJ v = true) →
       (chatStep st ev data).1.history.Nodup) := by
  rcases chatStep_history st ev data with he | ⟨v, hcs, hany, he⟩
  · rw [he]
    exact ⟨hd, fun hn _ => hn⟩
  · rw [he]
    have hall : ∀ x ∈ st.history, jsStrictEq x v = false := by
      intro x hx
      by_contra hcon
      rw [Bool.not_eq_false] at hcon
      have hco : (st.history.any fun h => jsStrictEq h v) = true :=
        List.any_eq_true.mpr ⟨x, hx, hcon⟩
      rw [hany] at hco
      cases hco
    constructor
    · refine List.pairwise_append.mpr ⟨hd, List.pairwise_singleton _ _, ?_⟩
      intro a ha b hb
      simp only [List.mem_singleton] at hb
      subst hb
      exact hall a ha
    · intro hn hprim
      have hv := hprim v hcs
      have hnotmem : v ∉ st.history := by
        intro hm
        have h1 := hall v hm
        have h2 := (jsStrictEq_eq_of_prim v hv v).mpr rfl
        rw [h1] at h2
        cases h2
      simp [List.nodup_append, hn, hnotmem]

/-- Claim C9 witness: a `status` event over a distinct history keeps
it distinct (here pushing `"B"` onto `["A"]`). -/
theorem claim_C9_witness :
    refDistinct ([Json.str "A"] : List Json)
    ∧ (refDistinct (chatStep (TurnState.mk (some (.str "B")) [.str "A"] "" [] [] usage0)
          "status" (Json.jobj [("status", .str "C")])).1.history
       ∧ (([Json.str "A"] : List Json).Nodup →
          (∀ v, (TurnState.mk (some (.str "B")) [.str "A"] "" [] [] usage0).currentStatus
              = some v → primJ v = true) →
          (chatStep (TurnState.mk (some (.str "B")) [.str "A"] "" [] [] usage0)
            "status" (Json.jobj [("status", .str "C")])).1.history.Nodup)) :=
  ⟨by simp [refDistinct],
   claim_C9 (TurnState.mk (some (.str "B")) [.str "A"] "" [] [] usage0)
     "status" (Json.jobj [("status", .str "C")]) (by simp [refDistinct])⟩

theorem procLine_parse_failure (et : String) (raw rest : List Char)
    (hline : trimL raw = ("data:".toList) ++ rest)
    (hne : trimL rest ≠ [])
    (hparse : jsonParse (trimL rest) = none) :
    SseBuffered.procLine et raw =
      if et = "error" then ⟨et, [], some (.parseFailure (trimL rest))⟩
      else ⟨et, [], none⟩ := by
  have e1 : (("data:".toList : List Char) ++ rest).isEmpty = false := rfl
  have e2 : hasPre ("event:".toList) (("data:".toList : List Char) ++ rest) = false := rfl
  have e3 : hasPre ("data:".toList) (("data:".toList : List Char) ++ rest) = true := rfl
  have e4 : (("data:".toList : List Char) ++ rest).drop 5 = rest := rfl
  have e5 : (trimL rest).isEmpty = false := by
    cases h : trimL rest with
    | nil => exact absurd h hne
    | cons a l => rfl
  simp only [SseBuffered.procLine, hline, e1, e2, e3, e4, e5, hparse,
    Bool.false_eq_true, if_false, if_true]

/-- Claim C7: a JSON parse failure on a `data:` line is swallowed —
no callback fires, the sticky event type is unchanged, and the loop
continues — unless the current event type is `"error"`, in which case
the parse failure itself aborts the call; in particular, under event
type `"status"` the chat reducer receives nothing, so its whole state,
`currentStatus` included, is untouched. -/
theorem claim_C7 (et : String) (raw rest : List Char)
    (hline : trimL raw = ("data:".toList) ++ rest)
    (hne : trimL rest ≠ [])
    (hparse : jsonParse (trimL rest) = none) :
    (et ≠ "error" → SseBuffered.procLine et raw = ⟨et, [], none⟩)
    ∧ SseBuffered.procLine "error" raw
        = ⟨"error", [], some (.parseFailure (trimL rest))⟩
    ∧ (∀ st : TurnState,
        runTurn st (onEventStrPairs (SseBuffered.procLine "status" raw).cbs)
          = (st, [])) := by
  refine ⟨?_, ?_, ?_⟩
  · intro hne'
    rw [procLine_parse_failure et raw rest hline hne hparse, if_neg hne']
  · rw [procLine_parse_failure "error" raw rest hline hne hparse]
    rfl
  · intro st
    rw [procLine_parse_failure "status" raw rest hline hne hparse]
    rfl

/-- Claim C7 witness: the malformed line `data: \x7boops` under event
types `"status"` and `"error"`. -/
theorem claim_C7_witness :
    (trimL ("data: \x7boops".toList) = ("data:".toList) ++ (" \x7boops".toList)
      ∧ trimL (" \x7boops".toList) ≠ []
      ∧ jsonParse (trimL (" \x7boops".toList)) = none)
    ∧ (("status" : String) ≠ "error" →
        SseBuffered.procLine "status" ("data: \x7boops".toList)
          = ⟨"status", [], none⟩) :=
  ⟨⟨by decide, by decide, by decide⟩,
   fun _ => (claim_C7 "status" ("data: \x7boops".toList) (" \x7boops".toList)
      (by decide) (by decide) (by decide)).1 (by decide)⟩

/-- Claim C10: an error frame whose type comes only from the payload's
embedded `event` field (the line-level type still `"message"`) invokes
`onError` with the message, but the failure thrown right after is
caught by the parse-failure branch (the line-level type is not
`"error"`) and merely logged: no abort is recorded and the lines after
it are still processed and delivered. -/
theorem claim_C10 (raw rest : List Char) (d : Json)
    (hline : trimL raw = ("data:".toList) ++ rest)
    (hparse : jsonParse (trimL rest) = some d)
    (hev : jget d "event" = some (.str "error")) :
    SseBuffered.procLine "message" raw
      = ⟨"message",
         [CB.onEvent (.str "message") d,
          CB.onError (jsOrJ (jget d "message") (.str "An error occurred"))],
         none⟩
    ∧ ∀ ls, SseBuffered.procLines "message" (raw :: ls)
        = ⟨(SseBuffered.procLines "message" ls).et,
           (SseBuffered.procLine "message" raw).cbs
             ++ (SseBuffered.procLines "message" ls).cbs,
           (SseBuffered.procLines "message" ls).err⟩ := by
  have hne : trimL rest ≠ [] := by
    intro h0
    rw [h0] at hparse
    have hnil : jsonParse ([] : List Char) = none := rfl
    rw [hnil] at hparse
    cases hparse
  have e1 : (("data:".toList : List Char) ++ rest).isEmpty = false := rfl
  have e2 : hasPre ("event:".toList) (("data:".toList : List Char) ++ rest) = false := rfl
  have e3 : hasPre ("data:".toList) (("data:".toList : List Char) ++ rest) = true := rfl
  have e4 : (("data:".toList : List Char) ++ rest).drop 5 = rest := rfl
  have e5 : (trimL rest).isEmpty = false := by
    cases h : trimL rest with
    | nil => exact absurd h hne
    | cons a l => rfl
  have h1 : SseBuffered.procLine "message" raw
      = ⟨"message",
         [CB.onEvent (.str "message") d,
          CB.onError (jsOrJ (jget d "message") (.str "An error occurred"))],
         none⟩ := by
    simp only [SseBuffered.procLine, hline, e1, e2, e3, e4, e5, hparse,
      Bool.false_eq_true, if_false, if_true]
    simp [SseBuffered.dispatchData, hev, isStrVal, truthyO, truthyJ, jsOrJ]
  refine ⟨h1, fun ls => ?_⟩
  simp only [SseBuffered.procLines, h1]

/-- Claim C10 witness: the frame
`data: \x7b"event":"error","message":"boom"\x7d` with no preceding
`event:` line delivers `onEvent` and `onError` without aborting, and a
following `token` frame is still processed. -/
theorem claim_C10_witness :
    (trimL ("data: \x7b\"event\":\"error\",\"message\":\"boom\"\x7d".toList)
        = ("data:".toList)
          ++ (" \x7b\"event\":\"error\",\"message\":\"boom\"\x7d".toList)
      ∧ jsonParse (trimL (" \x7b\"event\":\"error\",\"message\":\"boom\"\x7d".toList))
        = some (Json.jobj [("event", .str "error"), ("message", .str "boom")])
      ∧ jget (Json.jobj [("event", .str "error"), ("message", .str "boom")]) "event"
        = some (.str "error"))
    ∧ SseBuffered.procLine "message"
        ("data: \x7b\"event\":\"error\",\"message\":\"boom\"\x7d".toList)
      = ⟨"message",
         [CB.onEvent (.str "message")
            (Json.jobj [("event", .str "error"), ("message", .str "boom")]),
          CB.onError (jsOrJ (jget (Json.jobj [("event", .str "error"),
              ("message", .str "boom")]) "message") (.str "An error occurred"))],
         none⟩
    ∧ SseBuffered.procLines "message"
        [("data: \x7b\"event\":\"error\",\"message\":\"boom\"\x7d".toList),
         ("data: \x7b\"token\":\"T\"\x7d".toList)]
      = ⟨(SseBuffered.procLines "message" [("data: \x7b\"token\":\"T\"\x7d".toList)]).et,
         (SseBuffered.procLine "message"
            ("data: \x7b\"event\":\"error\",\"message\":\"boom\"\x7d".toList)).cbs
           ++ (SseBuffered.procLines "message"
                [("data: \x7b\"token\":\"T\"\x7d".toList)]).cbs,
         (SseBuffered.procLines "message"
            [("data: \x7b\"token\":\"T\"\x7d".toList)]).err⟩ :=
  ⟨⟨by decide, by decide, by decide⟩,
   (claim_C10 ("data: \x7b\"event\":\"error\",\"message\":\"boom\"\x7d".toList)
      (" \x7b\"event\":\"error\",\"message\":\"boom\"\x7d".toList)
      (Json.jobj [("event", .str "error"), ("message", .str "boom")])
      (by decide) (by decide) (by decide)).1,
   (claim_C10 ("data: \x7b\"event\":\"error\",\"message\":\"boom\"\x7d".toList)
      (" \x7b\"event\":\"error\",\"message\":\"boom\"\x7d".toList)
      (Json.jobj [("event", .str "error"), ("message", .str "boom")])
      (by decide) (by decide) (by decide)).2
     [("data: \x7b\"token\":\"T\"\x7d".toList)]⟩
